import Mathlib

set_option maxRecDepth 8192

/-!
Verification of the Dynamixel 2.0 protocol core (go-dxl, protocol/v2).

Bytes are modelled as `Nat` values below 256; 16-bit quantities carry an
explicit `% 65536`.  The pure codec (`crc16`, `stuff`, `unstuff`,
`packetBytes`, `parseStatusPacket`) lives in `protocol.go`, which is not
part of the available sources (only its test file is); those definitions
are modelled from the specification and checked against the pinned test
vectors.  The handler (`handler.go`) is translated directly from source.
-/

namespace DXL

instance {ε α : Type} [DecidableEq ε] [DecidableEq α] : DecidableEq (Except ε α) := fun a b =>
  match a, b with
  | .ok x, .ok y =>
    if h : x = y then .isTrue (by rw [h]) else .isFalse (by intro hc; cases hc; exact h rfl)
  | .error x, .error y =>
    if h : x = y then .isTrue (by rw [h]) else .isFalse (by intro hc; cases hc; exact h rfl)
  | .ok _, .error _ => .isFalse (by intro hc; cases hc)
  | .error _, .ok _ => .isFalse (by intro hc; cases hc)

/-- Header bytes of every packet: `FF FF FD 00`. -/
def header1 : Nat := 0xFF
def header2 : Nat := 0xFF
def header3 : Nat := 0xFD
def headerR : Nat := 0x00

def hdr : List Nat := [header1, header2, header3, headerR]

def BroadcastID : Nat := 0xFE

/-- Instruction codes (modelled from the spec, matching the test file). -/
def ping : Nat := 0x01
def read : Nat := 0x02
def write : Nat := 0x03
def regWrite : Nat := 0x04
def action : Nat := 0x05
def reset : Nat := 0x06
def reboot : Nat := 0x08
def clear : Nat := 0x10
def backup : Nat := 0x20
def statusCode : Nat := 0x55
def syncRead : Nat := 0x82
def syncWrite : Nat := 0x83
def fastSyncRead : Nat := 0x8A
def bulkRead : Nat := 0x92
def bulkWrite : Nat := 0x93
def fastBRead : Nat := 0x9A

/-- Error values of `errors.go`, plus Go error wrapping: `wrap ctx e`
models `fmt.Errorf(ctx+": %w", e)` and `errorf msg` models a fresh
`fmt.Errorf(msg)` that wraps no sentinel. -/
inductive DxlErr where
  | deviceError | resultError | instructionError | deviceCRCError
  | dataRangeError | dataLengthError | dataLimitError | accessError
  | invalidID | readTimeout | truncatedStatus | malformedStatus
  | invalidStatusLength | statusCRCInvalid
  | unexpectedParamCount | noStatusOnBroadcast | minOneIDRequired
  | wrap (ctx : String) (e : DxlErr)
  | errorf (msg : String)
  deriving DecidableEq, Repr

/-- Go `errors.Is err target` for sentinel targets: unwraps `wrap`. -/
def DxlErr.is : DxlErr → DxlErr → Bool
  | .wrap c e, t => (DxlErr.wrap c e == t) || e.is t
  | e, t => e == t

/-- One shift step of the CRC-16 (poly 0x8005, MSB first), truncated to
16 bits.  Modelled from the spec: `protocol.go` is absent from the
sources; the spec pins the CRC as the ROBOTIS CRC-16 with polynomial
`0x8005`, init `0x0000`, no reflection, no final xor. -/
def crcShift (c : Nat) : Nat :=
  if c < 32768 then (2 * c) % 65536 else ((2 * c) ^^^ 0x8005) % 65536

/-- Feed one byte into the CRC accumulator. -/
def crcByte (crc b : Nat) : Nat :=
  crcShift (crcShift (crcShift (crcShift (crcShift (crcShift (crcShift
    (crcShift ((crc ^^^ (b % 256) * 256) % 65536))))))))

/-- Modelled from the spec: CRC-16 over a byte list (missing
`protocol.go`), initial value `0x0000`. -/
def crc16 (l : List Nat) : Nat := l.foldl crcByte 0

/-- Modelled from the spec (missing `protocol.go`): byte stuffing inserts
`0xFD` after every `FF FF FD` triple, left to right, never re-scanning
its own output. -/
def stuff : List Nat → List Nat
  | a :: b :: c :: rest =>
    if a = 0xFF ∧ b = 0xFF ∧ c = 0xFD then
      0xFF :: 0xFF :: 0xFD :: 0xFD :: stuff rest
    else
      a :: stuff (b :: c :: rest)
  | l => l

/-- Modelled from the spec (missing `protocol.go`): unstuffing collapses
every `FF FF FD FD` back to `FF FF FD`, left to right, never
re-scanning. -/
def unstuff : List Nat → List Nat
  | a :: b :: c :: d :: rest =>
    if a = 0xFF ∧ b = 0xFF ∧ c = 0xFD ∧ d = 0xFD then
      0xFF :: 0xFF :: 0xFD :: unstuff rest
    else
      a :: unstuff (b :: c :: d :: rest)
  | l => l

/-- The `instruction` triple of `protocol.go` (declared by its test). -/
structure Instr where
  id : Nat
  command : Nat
  params : List Nat

/-- The successful branch of `instruction.packetBytes`: header, id,
little-endian length `3 + |stuffed params|`, instruction code, stuffed
params, then the CRC-16 over everything so far appended little-endian. -/
def buildPacket (id command : Nat) (params : List Nat) : List Nat :=
  let sp := stuff params
  let len := 3 + sp.length
  let pre := hdr ++ [id % 256, len % 256, len / 256 % 256, command % 256] ++ sp
  pre ++ [crc16 pre % 256, crc16 pre / 256]

/-- Modelled from the spec (missing `protocol.go`): the instruction
encoder; rejects the reserved ids `0xFD` and `0xFF` with `InvalidId`. -/
def packetBytes (i : Instr) : Except DxlErr (List Nat) :=
  if i.id = 0xFD ∨ i.id = 0xFF then .error .invalidID
  else .ok (buildPacket i.id i.command i.params)

/-- The `status` triple of `protocol.go` (declared by its test): id,
optional device error decoded from the error byte, unstuffed params. -/
structure DStatus where
  id : Nat
  err : Option DxlErr
  params : List Nat
  deriving DecidableEq, Repr

/-- Device error decoding: the low 7 bits of the error byte select the
variant (zero means none); the high bit alone signals a hardware
alert. -/
def decodeDeviceErr (b : Nat) : Option DxlErr :=
  match b % 128 with
  | 0 => if 128 ≤ b % 256 then some .deviceError else none
  | 1 => some .resultError
  | 2 => some .instructionError
  | 3 => some .deviceCRCError
  | 4 => some .dataRangeError
  | 5 => some .dataLengthError
  | 6 => some .dataLimitError
  | 7 => some .accessError
  | _ => none

/-- The little-endian wire length field of a status packet (bytes at
offsets 5 and 6). -/
def lenField (p : List Nat) : Nat := p.getD 5 0 + 256 * p.getD 6 0

/-- Modelled from the spec (missing `protocol.go`): the status packet
parser.  Check order, fixed by the test vectors of
`protocol_test.go`: a packet below the 11-byte minimum is
`TruncatedStatus` (the 9-byte vector expects that even though its
length field is also inconsistent); then the instruction byte must be
`0x55` (`MalformedStatus`); then the total length must equal `LEN + 7`
(`InvalidStatusLength`); then the CRC over the first `LEN + 5` bytes
must match the trailing two bytes little-endian (`StatusCrcInvalid`);
finally the error byte is decoded and the params region unstuffed. -/
def parseStatusPacket (p : List Nat) : Except DxlErr DStatus :=
  if p.length < 11 then .error .truncatedStatus
  else if p.getD 7 0 ≠ statusCode then .error .malformedStatus
  else if p.length ≠ lenField p + 7 then .error .invalidStatusLength
  else if crc16 (p.take (lenField p + 5)) ≠
      p.getD (lenField p + 5) 0 + 256 * p.getD (lenField p + 6) 0 then
    .error .statusCRCInvalid
  else
    .ok { id := p.getD 4 0
          err := decodeDeviceErr (p.getD 8 0)
          params := unstuff ((p.drop 9).take (lenField p - 4)) }

/-- The header-seek loop of `readStatus` (`handler.go`): read one byte
at a time into a sliding buffer; once four bytes are present, compare
the last four with the header pattern; on a miss drop the first buffered
byte.  Returns the input remaining after the header, or `none` when the
input is exhausted (which the transport reports as an endless EOF, hence
a read timeout). -/
def seekHeader : List Nat → List Nat → Option (List Nat)
  | _, [] => none
  | acc, b :: rest =>
    let acc' := acc ++ [b]
    if 4 ≤ acc'.length then
      if acc'.drop (acc'.length - 4) = hdr then some rest
      else seekHeader (acc'.drop 1) rest
    else seekHeader acc' rest

/-- `readStatus` of `handler.go`, specialised to an input stream whose
bytes are all immediately available (no mid-stream EOFs): seek the
header, read id and the two length bytes, reject `LEN < 4` early with
`InvalidStatusLength`, read `LEN` further bytes and parse.  Running out
of input corresponds to waiting on an endless EOF, i.e. `ReadTimeout`.
Returns the parse result and the unconsumed input. -/
def readStatusCore (input : List Nat) : Except DxlErr DStatus × List Nat :=
  match seekHeader [] input with
  | none => (.error (.wrap "failed to read status packet header" .readTimeout), [])
  | some rest =>
    if rest.length < 3 then
      (.error (.wrap "failed to read status packet ID and Length" .readTimeout), [])
    else
      let idLen := rest.take 3
      let length := idLen.getD 1 0 + 256 * idLen.getD 2 0
      if length < 4 then (.error .invalidStatusLength, rest.drop 3)
      else
        let rest2 := rest.drop 3
        if rest2.length < length then
          (.error (.wrap "failed to read status packet instruction, error, params and crc" .readTimeout), [])
        else
          match parseStatusPacket (hdr ++ idLen ++ rest2.take length) with
          | .ok s => (.ok s, rest2.drop length)
          | .error e => (.error e, rest2.drop length)

/-- Handler transport state: the bytes still to be read, and the log of
instruction packets written so far. -/
structure HState where
  input : List Nat
  written : List (List Nat)
  deriving DecidableEq, Repr

/-- `readStatus` acting on the transport state. -/
def readStatusS (s : HState) : Except DxlErr DStatus × HState :=
  let r := readStatusCore s.input
  (r.1, { s with input := r.2 })

/-- `Handler.writeInstruction`: build the packet and write it to the
transport (the model transport accepts every write). -/
def writeInstruction (id command : Nat) (params : List Nat) (s : HState) :
    Except DxlErr Unit × HState :=
  match packetBytes ⟨id, command, params⟩ with
  | .error e => (.error (.wrap "failed to create instruction packet" e), s)
  | .ok pkt => (.ok (), { s with written := s.written ++ [pkt] })

/-- `Handler.Write`. -/
def Write (id addr : Nat) (data : List Nat) (s : HState) :
    Except DxlErr Unit × HState :=
  let params := [addr % 256, addr / 256 % 256] ++ data
  match writeInstruction id write params s with
  | (.error e, s1) => (.error (.wrap "failed to send write instruction" e), s1)
  | (.ok _, s1) =>
    if id ≠ BroadcastID then
      match readStatusS s1 with
      | (.error e, s2) => (.error (.wrap "failed to read/parse write status" e), s2)
      | (.ok r, s2) =>
        match r.err with
        | some de => (.error (.wrap "device returned error" de), s2)
        | none => (.ok (), s2)
    else (.ok (), s1)

/-- `Handler.RegWrite`. -/
def RegWrite (id addr : Nat) (data : List Nat) (s : HState) :
    Except DxlErr Unit × HState :=
  let params := [addr % 256, addr / 256 % 256] ++ data
  match writeInstruction id regWrite params s with
  | (.error e, s1) => (.error (.wrap "failed to send reg write instruction" e), s1)
  | (.ok _, s1) =>
    if id ≠ BroadcastID then
      match readStatusS s1 with
      | (.error e, s2) => (.error (.wrap "failed to read/parse reg write status" e), s2)
      | (.ok r, s2) =>
        match r.err with
        | some de => (.error (.wrap "device returned error" de), s2)
        | none => (.ok (), s2)
    else (.ok (), s1)

/-- `Handler.Action`. -/
def Action (id : Nat) (s : HState) : Except DxlErr Unit × HState :=
  match writeInstruction id action [] s with
  | (.error e, s1) => (.error (.wrap "failed to send action instruction" e), s1)
  | (.ok _, s1) =>
    if id ≠ BroadcastID then
      match readStatusS s1 with
      | (.error e, s2) => (.error (.wrap "failed to read/parse action status" e), s2)
      | (.ok r, s2) =>
        match r.err with
        | some de => (.error (.wrap "device returned error" de), s2)
        | none => (.ok (), s2)
    else (.ok (), s1)

/-- `Handler.Reboot`. -/
def Reboot (id : Nat) (s : HState) : Except DxlErr Unit × HState :=
  match writeInstruction id reboot [] s with
  | (.error e, s1) => (.error (.wrap "failed to send reboot instruction" e), s1)
  | (.ok _, s1) =>
    if id ≠ BroadcastID then
      match readStatusS s1 with
      | (.error e, s2) => (.error (.wrap "failed to read/parse reboot status" e), s2)
      | (.ok r, s2) =>
        match r.err with
        | some de => (.error (.wrap "device returned error" de), s2)
        | none => (.ok (), s2)
    else (.ok (), s1)

/-- `Handler.FactoryReset`. -/
def FactoryReset (id option : Nat) (s : HState) : Except DxlErr Unit × HState :=
  match writeInstruction id reset [option] s with
  | (.error e, s1) => (.error (.wrap "failed to send reset instruction" e), s1)
  | (.ok _, s1) =>
    if id ≠ BroadcastID then
      match readStatusS s1 with
      | (.error e, s2) => (.error (.wrap "failed to read/parse reset status" e), s2)
      | (.ok r, s2) =>
        match r.err with
        | some de => (.error (.wrap "device returned error" de), s2)
        | none => (.ok (), s2)
    else (.ok (), s1)

/-- `Handler.Clear`: the option byte is followed by the fixed magic
`44 58 4C 22`. -/
def Clear (id option : Nat) (s : HState) : Except DxlErr Unit × HState :=
  match writeInstruction id clear [option, 0x44, 0x58, 0x4C, 0x22] s with
  | (.error e, s1) => (.error (.wrap "failed to send clear instruction" e), s1)
  | (.ok _, s1) =>
    if id ≠ BroadcastID then
      match readStatusS s1 with
      | (.error e, s2) => (.error (.wrap "failed to read/parse clear status" e), s2)
      | (.ok r, s2) =>
        match r.err with
        | some de => (.error (.wrap "device returned error" de), s2)
        | none => (.ok (), s2)
    else (.ok (), s1)

/-- `Handler.ControlTableBackup`: the option byte is followed by the
fixed magic `43 54 52 4C`. -/
def ControlTableBackup (id option : Nat) (s : HState) :
    Except DxlErr Unit × HState :=
  match writeInstruction id backup [option, 0x43, 0x54, 0x52, 0x4C] s with
  | (.error e, s1) => (.error (.wrap "failed to send backup instruction" e), s1)
  | (.ok _, s1) =>
    if id ≠ BroadcastID then
      match readStatusS s1 with
      | (.error e, s2) => (.error (.wrap "failed to read/parse backup status" e), s2)
      | (.ok r, s2) =>
        match r.err with
        | some de => (.error (.wrap "device returned error" de), s2)
        | none => (.ok (), s2)
    else (.ok (), s1)

/-- The per-id reply loop of `Handler.SyncRead`: one status per id, each
checked for a device error and for a parameter count equal to the
requested length. -/
def syncReadLoop (count length : Nat) (s : HState) :
    Except DxlErr (List (List Nat)) × HState :=
  match count with
  | 0 => (.ok [], s)
  | k + 1 =>
    match readStatusS s with
    | (.error e, s1) => (.error (.wrap "failed to read/parse sync read status" e), s1)
    | (.ok r, s1) =>
      match r.err with
      | some de => (.error de, s1)
      | none =>
        if r.params.length ≠ length then (.error .unexpectedParamCount, s1)
        else
          match syncReadLoop k length s1 with
          | (.ok acc, s2) => (.ok (r.params :: acc), s2)
          | (.error e, s2) => (.error e, s2)

/-- `Handler.SyncRead`: broadcast the instruction, then read one status
per id. -/
def SyncRead (ids : List Nat) (addr length : Nat) (s : HState) :
    Except DxlErr (List (List Nat)) × HState :=
  let params := [addr % 256, addr / 256 % 256, length % 256, length / 256 % 256] ++ ids
  match writeInstruction BroadcastID syncRead params s with
  | (.error e, s1) => (.error (.wrap "failed to send sync read instruction" e), s1)
  | (.ok _, s1) => syncReadLoop ids.length length s1

/-- `BulkReadDescriptor` of `handler.go`. -/
structure BulkRDescriptor where
  id : Nat
  addr : Nat
  length : Nat

/-- Parameter block of `Handler.BulkRead`: per descriptor, id then
little-endian address then little-endian length. -/
def bulkReadParams : List BulkRDescriptor → List Nat
  | [] => []
  | d :: rest =>
    [d.id % 256, d.addr % 256, d.addr / 256 % 256,
     d.length % 256, d.length / 256 % 256] ++ bulkReadParams rest

/-- The per-descriptor reply loop of `Handler.BulkRead`. -/
def bulkReadLoop (ds : List BulkRDescriptor) (s : HState) :
    Except DxlErr (List (List Nat)) × HState :=
  match ds with
  | [] => (.ok [], s)
  | d :: rest =>
    match readStatusS s with
    | (.error e, s1) => (.error (.wrap "failed to read/parse bulk read status" e), s1)
    | (.ok r, s1) =>
      match r.err with
      | some de => (.error de, s1)
      | none =>
        if r.params.length ≠ d.length then (.error .unexpectedParamCount, s1)
        else
          match bulkReadLoop rest s1 with
          | (.ok acc, s2) => (.ok (r.params :: acc), s2)
          | (.error e, s2) => (.error e, s2)

/-- `Handler.BulkRead`: broadcast the instruction, then read one status
per descriptor. -/
def BulkRead (ds : List BulkRDescriptor) (s : HState) :
    Except DxlErr (List (List Nat)) × HState :=
  match writeInstruction BroadcastID bulkRead (bulkReadParams ds) s with
  | (.error e, s1) => (.error (.wrap "failed to send bulk read instruction" e), s1)
  | (.ok _, s1) => bulkReadLoop ds s1

/-- Outcome of a Go call that may succeed, return an error, or panic
(for the slice expressions of `FastSyncRead`, whose bounds are not
statically checked). -/
inductive GoResult (α : Type) where
  | ok (a : α)
  | err (e : DxlErr)
  | panics
  deriving DecidableEq, Repr

/-- Go slice expression `l[a:b]`: defined only when `a ≤ b ≤ len(l)`,
otherwise the program panics (`none`). -/
def goSlice (l : List Nat) (a b : Nat) : Option (List Nat) :=
  if a ≤ b ∧ b ≤ l.length then some ((l.drop a).take (b - a)) else none

/-- The record slice for the i-th extra device in `FastSyncRead`
(`i ≥ 1`): `params[len+5+(i-1)*8 : len+5+(i-1)*8+len]`. -/
def fsrSliceAt (length : Nat) (p : List Nat) (i : Nat) : Option (List Nat) :=
  goSlice p (length + 5 + (i - 1) * 8) (length + 5 + (i - 1) * 8 + length)

/-- The `for i := 1; i < n; i++` loop of `FastSyncRead`, collecting the
record slices of the extra devices in order; `none` when any slice is
out of bounds (the Go code panics there). -/
def fsrLoop (length : Nat) (p : List Nat) (i : Nat) : Nat → Option (List (List Nat))
  | 0 => some []
  | k + 1 =>
    match fsrSliceAt length p i, fsrLoop length p (i + 1) k with
    | some x, some xs => some (x :: xs)
    | _, _ => none

/-- All slice extractions of `FastSyncRead`: `params[1 : len+1]` for the
first device, then `fsrSliceAt` for devices `1 .. n-1`; `none` when any
slice is out of bounds (the Go code panics there). -/
def fsrSlices (n length : Nat) (p : List Nat) : Option (List (List Nat)) :=
  match goSlice p 1 (length + 1) with
  | none => none
  | some first =>
    match fsrLoop length p 1 (n - 1) with
    | none => none
    | some rest => some (first :: rest)

/-- `Handler.FastSyncRead` (`handler.go`): reject an empty id list with
a fresh `fmt.Errorf` value (the code carries a `TODO error value`
comment and does not use `ErrMinOneIDRequired`); broadcast the
instruction; read a single aggregated status; reject a device error;
check `|params| = len + (n-1)*(len+4) + 1`; then slice out the
per-device records. -/
def FastSyncRead (ids : List Nat) (addr length : Nat) (s : HState) :
    GoResult (List (List Nat)) × HState :=
  if ids.length < 1 then
    (.err (.errorf "fast sync read requires at least one device ID"), s)
  else
    let params := [addr % 256, addr / 256 % 256, length % 256, length / 256 % 256] ++ ids
    match writeInstruction BroadcastID fastSyncRead params s with
    | (.error e, s1) => (.err (.wrap "failed to send fast sync read instruction" e), s1)
    | (.ok _, s1) =>
      match readStatusS s1 with
      | (.error e, s2) => (.err (.wrap "failed to read/parse fast sync read status" e), s2)
      | (.ok r, s2) =>
        match r.err with
        | some de => (.err de, s2)
        | none =>
          if r.params.length ≠ length + (ids.length - 1) * (length + 4) + 1 then
            (.err .unexpectedParamCount, s2)
          else
            match fsrSlices ids.length length r.params with
            | some resp => (.ok resp, s2)
            | none => (.panics, s2)

/-- A transport read event for the timed model: the Go `Read` call
blocks for `delay` time units and then returns one byte (`some b`) or
reports EOF, meaning no data yet (`none`). -/
structure TEvent where
  delay : Nat
  val : Option Nat
  deriving DecidableEq, Repr

/-- Timed header-seek loop of `readStatus`: every byte is fetched by its
own `readWithTimeout` call, so a fresh timer (`expiry = now + d`) starts
whenever `expiry` is `none`.  An EOF observed at a time at or past the
current expiry is a timeout.  Returns the remaining events on success
and the clock value either way. -/
def seekT (d : Nat) (acc : List Nat) (expiry : Option Nat) (now : Nat) :
    List TEvent → Option (List TEvent) × Nat
  | [] => (none, now)
  | ev :: rest =>
    let exp := expiry.getD (now + d)
    let now' := now + ev.delay
    match ev.val with
    | none => if exp ≤ now' then (none, now') else seekT d acc (some exp) now' rest
    | some b =>
      let acc' := acc ++ [b]
      if 4 ≤ acc'.length then
        if acc'.drop (acc'.length - 4) = hdr then (some rest, now')
        else seekT d (acc'.drop 1) none now' rest
      else seekT d acc' none now' rest

/-- Timed `readWithTimeout` for an `n`-byte buffer: a single timer with
expiry fixed at call start governs the whole call; EOFs at or past the
expiry time out, and byte arrivals never move the expiry. -/
def readNT (d : Nat) : Nat → Nat → Nat → List TEvent →
    Option (List Nat × List TEvent) × Nat
  | 0, _, now, evs => (some ([], evs), now)
  | _ + 1, _, now, [] => (none, now)
  | n + 1, expiry, now, ev :: rest =>
    let now' := now + ev.delay
    match ev.val with
    | none =>
      if expiry ≤ now' then (none, now')
      else readNT d (n + 1) expiry now' rest
    | some b =>
      match readNT d n expiry now' rest with
      | (some (bs, r), t) => (some (b :: bs, r), t)
      | (none, t) => (none, t)

/-- Timed `readStatus` (`handler.go`): seek the header byte by byte
(one `readWithTimeout` call, hence one fresh timer, per byte), then one
three-byte `readWithTimeout` call for id and length, then one
`LEN`-byte call for the body.  Returns the result and the final clock
value. -/
def readStatusT (d now0 : Nat) (evs : List TEvent) :
    Except DxlErr DStatus × Nat :=
  match seekT d [] none now0 evs with
  | (none, t) => (.error (.wrap "failed to read status packet header" .readTimeout), t)
  | (some evs1, t1) =>
    match readNT d 3 (t1 + d) t1 evs1 with
    | (none, t2) => (.error (.wrap "failed to read status packet ID and Length" .readTimeout), t2)
    | (some (idLen, evs2), t2) =>
      let length := idLen.getD 1 0 + 256 * idLen.getD 2 0
      if length < 4 then (.error .invalidStatusLength, t2)
      else
        match readNT d length (t2 + d) t2 evs2 with
        | (none, t3) => (.error (.wrap "failed to read status packet instruction, error, params and crc" .readTimeout), t3)
        | (some (body, _), t3) =>
          match parseStatusPacket (hdr ++ idLen ++ body) with
          | .ok s => (.ok s, t3)
          | .error e => (.error e, t3)

/-- Turns a byte list into a dribbling event stream: before every byte
the transport first reports EOF after one time unit, then delivers the
byte after one more time unit. -/
def dribble : List Nat → List TEvent
  | [] => []
  | b :: rest => ⟨1, none⟩ :: ⟨1, some b⟩ :: dribble rest

lemma stuff_cons1 (d : Nat) (r : List Nat) : ∃ t, stuff (d :: r) = d :: t := by
  match r with
  | [] => exact ⟨[], rfl⟩
  | [c] => exact ⟨[c], rfl⟩
  | c :: e :: r3 =>
    by_cases h : d = 0xFF ∧ c = 0xFF ∧ e = 0xFD
    · refine ⟨0xFF :: 0xFD :: 0xFD :: stuff r3, ?_⟩
      rw [show stuff (d :: c :: e :: r3) = 0xFF :: 0xFF :: 0xFD :: 0xFD :: stuff r3 from by
        simp only [stuff, if_pos h], h.1]
    · exact ⟨stuff (c :: e :: r3), by simp only [stuff, if_neg h]⟩

lemma stuff_cons2 (c d : Nat) (r : List Nat) : ∃ t, stuff (c :: d :: r) = c :: d :: t := by
  match r with
  | [] => exact ⟨[], rfl⟩
  | e :: r3 =>
    by_cases h : c = 0xFF ∧ d = 0xFF ∧ e = 0xFD
    · refine ⟨0xFD :: 0xFD :: stuff r3, ?_⟩
      rw [show stuff (c :: d :: e :: r3) = 0xFF :: 0xFF :: 0xFD :: 0xFD :: stuff r3 from by
        simp only [stuff, if_pos h], h.1, h.2.1]
    · obtain ⟨t, ht⟩ := stuff_cons1 d (e :: r3)
      exact ⟨t, by rw [show stuff (c :: d :: e :: r3) = c :: stuff (d :: e :: r3) from by
        simp only [stuff, if_neg h], ht]⟩

lemma stuff_cons3 (b c d : Nat) (r : List Nat) :
    ∃ t, stuff (b :: c :: d :: r) = b :: c :: d :: t := by
  by_cases h : b = 0xFF ∧ c = 0xFF ∧ d = 0xFD
  · refine ⟨0xFD :: stuff r, ?_⟩
    rw [show stuff (b :: c :: d :: r) = 0xFF :: 0xFF :: 0xFD :: 0xFD :: stuff r from by
      simp only [stuff, if_pos h], h.1, h.2.1, h.2.2]
  · obtain ⟨t, ht⟩ := stuff_cons2 c d r
    exact ⟨t, by rw [show stuff (b :: c :: d :: r) = b :: stuff (c :: d :: r) from by
      simp only [stuff, if_neg h], ht]⟩

/-- Unstuffing undoes stuffing, for every byte string. -/
lemma unstuff_stuff_aux (x : List Nat) : unstuff (stuff x) = x := by
  match x with
  | [] => rfl
  | [a] => rfl
  | [a, b] => rfl
  | a :: b :: c :: rest =>
    by_cases h : a = 0xFF ∧ b = 0xFF ∧ c = 0xFD
    · obtain ⟨ha, hb, hc⟩ := h
      subst ha; subst hb; subst hc
      rw [show stuff (0xFF :: 0xFF :: 0xFD :: rest) =
            0xFF :: 0xFF :: 0xFD :: 0xFD :: stuff rest from by simp [stuff]]
      rw [show unstuff (0xFF :: 0xFF :: 0xFD :: 0xFD :: stuff rest) =
            0xFF :: 0xFF :: 0xFD :: unstuff (stuff rest) from by simp [unstuff]]
      rw [unstuff_stuff_aux rest]
    · have h1 : stuff (a :: b :: c :: rest) = a :: stuff (b :: c :: rest) := by
        simp only [stuff, if_neg h]
      match rest with
      | [] => rw [h1]; rfl
      | d :: r3 =>
        obtain ⟨t, ht⟩ := stuff_cons3 b c d r3
        have hne : ¬(a = 0xFF ∧ b = 0xFF ∧ c = 0xFD ∧ d = 0xFD) := by
          intro hcon; exact h ⟨hcon.1, hcon.2.1, hcon.2.2.1⟩
        have h2 : unstuff (a :: b :: c :: d :: t) = a :: unstuff (b :: c :: d :: t) := by
          simp only [unstuff, if_neg hne]
        rw [h1, ht, h2, ← ht, unstuff_stuff_aux (b :: c :: d :: r3)]
termination_by x.length

lemma writeInstruction_broadcast (cmd : Nat) (params : List Nat) (s : HState) :
    writeInstruction BroadcastID cmd params s =
      (.ok (), { s with written := s.written ++ [buildPacket BroadcastID cmd params] }) := by
  simp [writeInstruction, packetBytes, BroadcastID]

/-- C1: for every instruction with a valid id, encoding yields the
header `FF FF FD 00`, the id byte, the little-endian length
`3 + |stuffed params|`, the instruction code, the stuffed parameters and
the little-endian CRC-16 of all preceding bytes; the output has exactly
`10 + |stuffed params|` bytes; and the pinned vectors of the test suite
are reproduced (the ping vector among them). -/
theorem c1_encode (i : Instr) (h1 : i.id ≠ 0xFD) (h2 : i.id ≠ 0xFF) :
    packetBytes i =
      .ok ([0xFF, 0xFF, 0xFD, 0x00, i.id % 256, (3 + (stuff i.params).length) % 256,
            (3 + (stuff i.params).length) / 256 % 256, i.command % 256] ++ stuff i.params ++
           [crc16 ([0xFF, 0xFF, 0xFD, 0x00, i.id % 256, (3 + (stuff i.params).length) % 256,
              (3 + (stuff i.params).length) / 256 % 256, i.command % 256] ++ stuff i.params) % 256,
            crc16 ([0xFF, 0xFF, 0xFD, 0x00, i.id % 256, (3 + (stuff i.params).length) % 256,
              (3 + (stuff i.params).length) / 256 % 256, i.command % 256] ++ stuff i.params) / 256]) ∧
    (buildPacket i.id i.command i.params).length = 10 + (stuff i.params).length ∧
    packetBytes ⟨0x01, ping, []⟩ =
      .ok [0xFF, 0xFF, 0xFD, 0x00, 0x01, 0x03, 0x00, 0x01, 0x19, 0x4E] ∧
    packetBytes ⟨0x01, reset, [0x01]⟩ =
      .ok [0xFF, 0xFF, 0xFD, 0x00, 0x01, 0x04, 0x00, 0x06, 0x01, 0xA1, 0xE6] ∧
    packetBytes ⟨0x23, read, [0x84, 0x00, 0x04, 0x00]⟩ =
      .ok [0xFF, 0xFF, 0xFD, 0x00, 0x23, 0x07, 0x00, 0x02, 0x84, 0x00, 0x04, 0x00, 0xDE, 0xB5] ∧
    packetBytes ⟨0xFE, fastBRead,
        [0x03, 0x84, 0x00, 0x04, 0x00, 0x07, 0x7C, 0x00, 0x02, 0x00, 0x04, 0x92, 0x00, 0x01, 0x00]⟩ =
      .ok [0xFF, 0xFF, 0xFD, 0x00, 0xFE, 0x12, 0x00, 0x9A, 0x03, 0x84, 0x00, 0x04, 0x00, 0x07,
           0x7C, 0x00, 0x02, 0x00, 0x04, 0x92, 0x00, 0x01, 0x00, 0xDA, 0x2D] := by
  refine ⟨?_, ?_, by decide, by decide, by decide, by decide⟩
  · have hid : ¬(i.id = 0xFD ∨ i.id = 0xFF) := by
      intro hc; cases hc with
      | inl hc => exact h1 hc
      | inr hc => exact h2 hc
    simp [packetBytes, if_neg hid, buildPacket, hdr, header1, header2, header3, headerR]
  · simp [buildPacket, hdr, header1, header2, header3, headerR]
    omega

theorem c1_encode_witness :
    packetBytes ⟨0x01, ping, []⟩ =
      .ok [0xFF, 0xFF, 0xFD, 0x00, 0x01, 0x03, 0x00, 0x01, 0x19, 0x4E] :=
  (c1_encode ⟨0x01, ping, []⟩ (by decide) (by decide)).2.2.1

/-- C3: unstuffing the result of stuffing any byte string yields the
string back. -/
theorem c3_stuff_roundtrip : ∀ x : List Nat, unstuff (stuff x) = x :=
  fun x => unstuff_stuff_aux x

/-- C5 counterexample: the 9-byte pinned vector has a total length (9)
different from `LEN + 7 = 8`, yet parsing returns `TruncatedStatus`,
not `InvalidStatusLength`. -/
theorem c5_counterexample :
    parseStatusPacket [0xFF, 0xFF, 0xFD, 0x00, 0xFF, 0x01, 0x00, 0x55, 0x00] =
      .error .truncatedStatus ∧
    ([0xFF, 0xFF, 0xFD, 0x00, 0xFF, 0x01, 0x00, 0x55, 0x00] : List Nat).length ≠
      lenField [0xFF, 0xFF, 0xFD, 0x00, 0xFF, 0x01, 0x00, 0x55, 0x00] + 7 ∧
    parseStatusPacket [0xFF, 0xFF, 0xFD, 0x00, 0xFF, 0x01, 0x00, 0x55, 0x00] ≠
      .error .invalidStatusLength := by
  refine ⟨by decide, by decide, by decide⟩

/-- C5 amended: for every fully assembled status packet of at least the
minimum 11 bytes whose instruction byte is `0x55`, a total length
different from `LEN + 7` yields `InvalidStatusLength`; packets below
the minimum yield `TruncatedStatus` instead. -/
theorem c5_status_length_mismatch (p : List Nat) (h11 : 11 ≤ p.length)
    (hinstr : p.getD 7 0 = statusCode) (hlen : p.length ≠ lenField p + 7) :
    parseStatusPacket p = .error .invalidStatusLength := by
  unfold parseStatusPacket
  rw [if_neg (by omega), if_neg (not_ne_iff.mpr hinstr), if_pos hlen]

theorem c5_status_length_mismatch_witness :
    parseStatusPacket [0xFF, 0xFF, 0xFD, 0x00, 0x01, 0x08, 0x01, 0x55,
        0x00, 0x06, 0x04, 0x26, 0x65, 0x5D] = .error .invalidStatusLength :=
  c5_status_length_mismatch _ (by decide) (by decide) (by decide)

/-- C6: every non-read, non-ping acknowledged instruction sent to the
broadcast id `0xFE` returns success right after the packet is written
and leaves the transport input untouched (no status is read). -/
theorem c6_broadcast_no_read :
    ∀ (input : List Nat) (w : List (List Nat)) (addr option : Nat) (data : List Nat),
      ((Write 0xFE addr data ⟨input, w⟩).1 = .ok () ∧
        (Write 0xFE addr data ⟨input, w⟩).2.input = input) ∧
      ((RegWrite 0xFE addr data ⟨input, w⟩).1 = .ok () ∧
        (RegWrite 0xFE addr data ⟨input, w⟩).2.input = input) ∧
      ((Action 0xFE ⟨input, w⟩).1 = .ok () ∧
        (Action 0xFE ⟨input, w⟩).2.input = input) ∧
      ((Reboot 0xFE ⟨input, w⟩).1 = .ok () ∧
        (Reboot 0xFE ⟨input, w⟩).2.input = input) ∧
      ((FactoryReset 0xFE option ⟨input, w⟩).1 = .ok () ∧
        (FactoryReset 0xFE option ⟨input, w⟩).2.input = input) ∧
      ((Clear 0xFE option ⟨input, w⟩).1 = .ok () ∧
        (Clear 0xFE option ⟨input, w⟩).2.input = input) ∧
      ((ControlTableBackup 0xFE option ⟨input, w⟩).1 = .ok () ∧
        (ControlTableBackup 0xFE option ⟨input, w⟩).2.input = input) := by
  intro input w addr option data
  have hb : (0xFE : Nat) = BroadcastID := rfl
  refine ⟨⟨?_, ?_⟩, ⟨?_, ?_⟩, ⟨?_, ?_⟩, ⟨?_, ?_⟩, ⟨?_, ?_⟩, ⟨?_, ?_⟩, ⟨?_, ?_⟩⟩ <;>
    simp [Write, RegWrite, Action, Reboot, FactoryReset, Clear, ControlTableBackup,
      hb, writeInstruction_broadcast]

/-- C7 (code bug): `FastSyncRead` with an empty id list writes nothing
and fails, but with a fresh ad-hoc error value (the source carries a
`TODO error value` comment) that `errors.Is` does not relate to the
declared `ErrMinOneIDRequired` sentinel of `errors.go`. -/
theorem c7_fast_sync_read_empty_ids :
    ∀ (addr length : Nat) (s : HState),
      (FastSyncRead [] addr length s).1 =
        .err (.errorf "fast sync read requires at least one device ID") ∧
      (FastSyncRead [] addr length s).2 = s ∧
      DxlErr.is (.errorf "fast sync read requires at least one device ID")
        .minOneIDRequired = false := by
  intro addr length s
  exact ⟨rfl, rfl, by decide⟩

/-- C10: `SyncRead` with no ids and `BulkRead` with no descriptors still
write the broadcast instruction packet, read nothing from the transport,
and return an empty result with no error. -/
theorem c10_empty_sync_bulk_read :
    ∀ (addr length : Nat) (input : List Nat) (w : List (List Nat)),
      SyncRead [] addr length ⟨input, w⟩ =
        (.ok [], ⟨input, w ++ [buildPacket BroadcastID syncRead
          [addr % 256, addr / 256 % 256, length % 256, length / 256 % 256]]⟩) ∧
      BulkRead [] ⟨input, w⟩ =
        (.ok [], ⟨input, w ++ [buildPacket BroadcastID bulkRead []]⟩) := by
  intro addr length input w
  constructor
  · simp [SyncRead, writeInstruction_broadcast, syncReadLoop]
  · simp [BulkRead, writeInstruction_broadcast, bulkReadLoop, bulkReadParams]

/-- C8: with at least one id, once the single aggregated status parses
with no device error, `FastSyncRead` succeeds only when the parameter
blob has exactly `n*len + (n-1)*4 + 1` bytes, and returns
`UnexpectedParamCount` whenever that arithmetic does not match. -/
theorem c8_fast_sync_read_param_count
    (ids : List Nat) (addr length : Nat) (input : List Nat) (w : List (List Nat))
    (r : DStatus) (rest : List Nat)
    (hids : 1 ≤ ids.length)
    (hread : readStatusCore input = (.ok r, rest))
    (herr : r.err = none) :
    (r.params.length ≠ length + (ids.length - 1) * (length + 4) + 1 →
      (FastSyncRead ids addr length ⟨input, w⟩).1 = .err .unexpectedParamCount) ∧
    (∀ resp, (FastSyncRead ids addr length ⟨input, w⟩).1 = .ok resp →
      r.params.length = length + (ids.length - 1) * (length + 4) + 1) := by
  have h0 : ¬(ids.length < 1) := by omega
  have hrun : FastSyncRead ids addr length ⟨input, w⟩ =
      (if r.params.length ≠ length + (ids.length - 1) * (length + 4) + 1 then
        (.err .unexpectedParamCount,
          ⟨rest, w ++ [buildPacket BroadcastID fastSyncRead
            ([addr % 256, addr / 256 % 256, length % 256, length / 256 % 256] ++ ids)]⟩)
      else
        match fsrSlices ids.length length r.params with
        | some resp => (.ok resp,
            ⟨rest, w ++ [buildPacket BroadcastID fastSyncRead
              ([addr % 256, addr / 256 % 256, length % 256, length / 256 % 256] ++ ids)]⟩)
        | none => (.panics,
            ⟨rest, w ++ [buildPacket BroadcastID fastSyncRead
              ([addr % 256, addr / 256 % 256, length % 256, length / 256 % 256] ++ ids)]⟩)) := by
    rw [FastSyncRead, if_neg h0]
    simp only [writeInstruction_broadcast, readStatusS, hread, herr]
  constructor
  · intro hne
    rw [hrun, if_pos hne]
  · intro resp hok
    by_contra hne
    rw [hrun, if_pos hne] at hok
    exact GoResult.noConfusion hok

theorem c8_fast_sync_read_param_count_witness :
    ((⟨0xA6, none, [0xA6, 0x00, 0x00, 0x00]⟩ : DStatus).params.length ≠
        4 + (([0xA6] : List Nat).length - 1) * (4 + 4) + 1 →
      (FastSyncRead [0xA6] 0 4
        ⟨[0xFF, 0xFF, 0xFD, 0x00, 0xA6, 0x08, 0x00, 0x55, 0x00, 0xA6, 0x00, 0x00, 0x00, 0xA5, 0xAF],
         []⟩).1 = .err .unexpectedParamCount) ∧
    (∀ resp, (FastSyncRead [0xA6] 0 4
        ⟨[0xFF, 0xFF, 0xFD, 0x00, 0xA6, 0x08, 0x00, 0x55, 0x00, 0xA6, 0x00, 0x00, 0x00, 0xA5, 0xAF],
         []⟩).1 = .ok resp →
      (⟨0xA6, none, [0xA6, 0x00, 0x00, 0x00]⟩ : DStatus).params.length =
        4 + (([0xA6] : List Nat).length - 1) * (4 + 4) + 1) :=
  c8_fast_sync_read_param_count [0xA6] 0 4
    [0xFF, 0xFF, 0xFD, 0x00, 0xA6, 0x08, 0x00, 0x55, 0x00, 0xA6, 0x00, 0x00, 0x00, 0xA5, 0xAF]
    [] ⟨0xA6, none, [0xA6, 0x00, 0x00, 0x00]⟩ [] (by decide) (by decide) rfl

/-- C9 counterexample: with three ids and a requested length of 1, the
aggregated parameter count check passes (12 bytes), yet the slice for
the third device runs past the end of the parameter slice, so the Go
slicing panics instead of staying in bounds. -/
theorem c9_counterexample :
    (List.replicate 12 0).length = 1 + (3 - 1) * (1 + 4) + 1 ∧
    fsrSlices 3 1 (List.replicate 12 0) = none ∧
    (FastSyncRead [1, 2, 3] 0 1
      ⟨[0xFF, 0xFF, 0xFD, 0x00, 0x01, 0x10, 0x00, 0x55, 0x00] ++
        List.replicate 12 0 ++ [0x0A, 0x67], []⟩).1 = .panics := by
  refine ⟨by decide, by decide, by decide⟩

lemma fsrLoop_isSome (length n : Nat) (p : List Nat)
    (hbound : ∀ j, 1 ≤ j → j < n → length + 5 + (j - 1) * 8 + length ≤ p.length) :
    ∀ k i, 1 ≤ i → k + i ≤ n → (fsrLoop length p i k).isSome := by
  intro k
  induction k with
  | zero => intro i _ _; rfl
  | succ m ih =>
    intro i hi hk
    have hs : (fsrSliceAt length p i).isSome := by
      have hb := hbound i hi (by omega)
      simp only [fsrSliceAt, goSlice]
      rw [if_pos ⟨by omega, hb⟩]
      rfl
    have hrec := ih (i + 1) (by omega) (by omega)
    obtain ⟨x, hx⟩ := Option.isSome_iff_exists.mp hs
    obtain ⟨xs, hxs⟩ := Option.isSome_iff_exists.mp hrec
    rw [fsrLoop, hx, hxs]
    rfl

/-- C9 amended: provided the requested length is at least 4, or there
are at most two ids, every slice index used by `FastSyncRead` on a blob
passing the parameter-count check lies within the bounds of the
parameter slice; for lengths below 4 with three or more ids the index
arithmetic (stride hard-coded to 8) runs out of bounds. -/
theorem c9_fsr_slices_in_bounds (n length : Nat) (p : List Nat) (h1 : 1 ≤ n)
    (h4 : 4 ≤ length ∨ n ≤ 2)
    (hp : p.length = length + (n - 1) * (length + 4) + 1) :
    (fsrSlices n length p).isSome := by
  have hfirst : (goSlice p 1 (length + 1)).isSome := by
    simp only [goSlice]
    rw [if_pos ⟨by omega, by omega⟩]
    rfl
  have hbound : ∀ j, 1 ≤ j → j < n → length + 5 + (j - 1) * 8 + length ≤ p.length := by
    intro j hj1 hjn
    rw [hp]
    rcases h4 with h4 | h4
    · obtain ⟨jm, rfl⟩ : ∃ jm, j = jm + 1 := ⟨j - 1, by omega⟩
      have hm1 : jm * 8 ≤ jm * (length + 4) := Nat.mul_le_mul_left _ (by omega)
      have hm2 : (jm + 1) * (length + 4) = jm * (length + 4) + (length + 4) :=
        Nat.succ_mul _ _
      have hm3 : (jm + 1) * (length + 4) ≤ (n - 1) * (length + 4) :=
        Nat.mul_le_mul_right _ (by omega)
      simp only [Nat.add_sub_cancel]
      omega
    · have hj : j = 1 := by omega
      have hn : n = 2 := by omega
      subst hj; subst hn
      simp
      omega
  obtain ⟨x, hx⟩ := Option.isSome_iff_exists.mp hfirst
  have hloop := fsrLoop_isSome length n p hbound (n - 1) 1 (by omega) (by omega)
  obtain ⟨xs, hxs⟩ := Option.isSome_iff_exists.mp hloop
  rw [fsrSlices, hx, hxs]
  rfl

theorem c9_fsr_slices_in_bounds_witness :
    (fsrSlices 2 1 (List.replicate 7 0)).isSome :=
  c9_fsr_slices_in_bounds 2 1 (List.replicate 7 0) (by decide)
    (Or.inr (by decide)) (by decide)

/-- Whether a byte list contains the 4-byte header pattern
`FF FF FD 00` as a contiguous run. -/
def hasHdr : List Nat → Bool
  | a :: b :: c :: d :: rest =>
    if a = 0xFF ∧ b = 0xFF ∧ c = 0xFD ∧ d = 0x00 then true
    else hasHdr (b :: c :: d :: rest)
  | _ => false

/-- The seek loop consumes exactly the garbage prefix and the header:
if the sliding buffer plus the prefix never shows the header pattern,
scanning `P ++ hdr ++ t` stops right after the header with `t` left.
The header cannot straddle the boundary because no proper suffix of
`FF FF FD 00` is a prefix of it. -/
lemma seekHeader_finds (t : List Nat) :
    ∀ (P acc : List Nat), acc.length ≤ 3 → hasHdr (acc ++ P) = false →
      seekHeader acc (P ++ (hdr ++ t)) = some t := by
  intro P
  induction P with
  | nil =>
    intro acc hacc _
    rcases acc with _ | ⟨a, _ | ⟨b, _ | ⟨c, _ | ⟨d, acc4⟩⟩⟩⟩
    · simp [seekHeader, hdr, header1, header2, header3, headerR]
    · simp [seekHeader, hdr, header1, header2, header3, headerR]
    · simp [seekHeader, hdr, header1, header2, header3, headerR]
    · simp [seekHeader, hdr, header1, header2, header3, headerR]
    · simp at hacc
  | cons p P' ih =>
    intro acc hacc hno
    rcases acc with _ | ⟨a, _ | ⟨b, _ | ⟨c, _ | ⟨d, acc4⟩⟩⟩⟩
    · exact ih [p] (by simp) (by simpa using hno)
    · exact ih [a, p] (by simp) (by simpa using hno)
    · exact ih [a, b, p] (by simp) (by simpa using hno)
    · simp only [List.cons_append, List.nil_append] at hno
      rw [hasHdr] at hno
      split at hno
      · exact absurd hno (by simp)
      · rename_i hcond
        show seekHeader [a, b, c] (p :: (P' ++ (hdr ++ t))) = some t
        rw [seekHeader]
        simp only [List.append_eq, List.length_append, List.length_cons,
          List.length_nil]
        rw [if_pos (by simp), if_neg (by
          simp [hdr, header1, header2, header3, headerR]
          intro ha hb hc
          intro hp
          exact hcond ⟨ha, hb, hc, hp⟩)]
        exact ih [b, c, p] (by simp) (by simpa using hno)
    · simp at hacc

/-- On a stream made of junk without the header pattern, a complete
wire status packet and arbitrary trailing bytes, `readStatus` assembles
exactly the packet and leaves the trailing bytes unread. -/
lemma readStatusCore_wire (P : List Nat) (i0 l1 l2 : Nat) (rest suffix : List Nat)
    (hP : hasHdr P = false) (hlen : rest.length = l1 + 256 * l2)
    (h4 : 4 ≤ l1 + 256 * l2) :
    readStatusCore (P ++ (hdr ++ i0 :: l1 :: l2 :: rest) ++ suffix) =
      (parseStatusPacket (hdr ++ i0 :: l1 :: l2 :: rest), suffix) := by
  have hassoc : P ++ (hdr ++ i0 :: l1 :: l2 :: rest) ++ suffix =
      P ++ (hdr ++ (i0 :: l1 :: l2 :: (rest ++ suffix))) := by
    simp [List.append_assoc]
  rw [hassoc, readStatusCore]
  simp only [seekHeader_finds (i0 :: l1 :: l2 :: (rest ++ suffix)) P [] (by simp)
      (by simpa using hP)]
  have hlen3 : ¬((i0 :: l1 :: l2 :: (rest ++ suffix)).length < 3) := by
    simp
  rw [if_neg hlen3]
  have htake3 : (i0 :: l1 :: l2 :: (rest ++ suffix)).take 3 = [i0, l1, l2] := rfl
  have hdrop3 : (i0 :: l1 :: l2 :: (rest ++ suffix)).drop 3 = rest ++ suffix := rfl
  simp only [htake3, hdrop3]
  have hgd : ([i0, l1, l2].getD 1 0 + 256 * [i0, l1, l2].getD 2 0) = l1 + 256 * l2 := rfl
  rw [hgd, if_neg (by omega)]
  have hlong : ¬((rest ++ suffix).length < l1 + 256 * l2) := by
    simp [List.length_append]
    omega
  rw [if_neg hlong]
  have htake : (rest ++ suffix).take (l1 + 256 * l2) = rest := by
    rw [← hlen]
    exact List.take_left rest suffix
  have hdrop : (rest ++ suffix).drop (l1 + 256 * l2) = suffix := by
    rw [← hlen]
    exact List.drop_left rest suffix
  rw [htake, hdrop]
  have hpkt : hdr ++ [i0, l1, l2] ++ rest = hdr ++ i0 :: l1 :: l2 :: rest := by
    simp
  rw [hpkt]
  rcases parseStatusPacket (hdr ++ i0 :: l1 :: l2 :: rest) with e | s
  · rfl
  · rfl

/-- C2: for every prefix `P` free of the header pattern and every valid
wire status packet (header, id, little-endian length `LEN ≥ 4`, and a
`LEN`-byte remainder that parses successfully), `readStatus` on
`P ++ W ++ suffix` succeeds with the same status as on `W` alone: bytes
are discarded only while seeking the header, and the byte-counted body
is never re-scanned for headers. -/
theorem c2_resync (P suffix : List Nat) (i0 l1 l2 : Nat) (rest : List Nat)
    (s : DStatus)
    (hP : hasHdr P = false)
    (hlen : rest.length = l1 + 256 * l2)
    (h4 : 4 ≤ l1 + 256 * l2)
    (hparse : parseStatusPacket (hdr ++ i0 :: l1 :: l2 :: rest) = .ok s) :
    (readStatusCore (P ++ (hdr ++ i0 :: l1 :: l2 :: rest) ++ suffix)).1 = .ok s ∧
    (readStatusCore (hdr ++ i0 :: l1 :: l2 :: rest)).1 = .ok s := by
  constructor
  · rw [readStatusCore_wire P i0 l1 l2 rest suffix hP hlen h4, hparse]
  · have h := readStatusCore_wire [] i0 l1 l2 rest [] rfl hlen h4
    rw [List.nil_append, List.append_nil] at h
    rw [h, hparse]

theorem c2_resync_witness :
    (readStatusCore ([0x11, 0xFF] ++
      (hdr ++ 0x01 :: 0x07 :: 0x00 :: [0x55, 0x00, 0x06, 0x04, 0x26, 0x65, 0x5D]) ++
      [0xAB])).1 = .ok ⟨0x01, none, [0x06, 0x04, 0x26]⟩ ∧
    (readStatusCore (hdr ++ 0x01 :: 0x07 :: 0x00 ::
      [0x55, 0x00, 0x06, 0x04, 0x26, 0x65, 0x5D])).1 =
      .ok ⟨0x01, none, [0x06, 0x04, 0x26]⟩ :=
  c2_resync [0x11, 0xFF] [0xAB] 0x01 0x07 0x00
    [0x55, 0x00, 0x06, 0x04, 0x26, 0x65, 0x5D] ⟨0x01, none, [0x06, 0x04, 0x26]⟩
    (by decide) (by decide) (by decide) (by decide)

/-- Total blocking time of a list of read events. -/
def delaySum : List TEvent → Nat
  | [] => 0
  | e :: r => e.delay + delaySum r

/-- Number of byte-delivering events in a list of read events. -/
def byteCount : List TEvent → Nat
  | [] => 0
  | e :: r => (if e.val.isSome then 1 else 0) + byteCount r

/-- C4 counterexample: with a 15-unit timeout, a stream that dribbles
every single byte of a valid status reply (an EOF poll one unit before
each byte, one more unit until the byte lands) keeps `readStatus`
running for 28 units — well past the deadline — and still succeeds,
because every header-seek byte gets a fresh timer; the claim that such
a dribble must end in `ReadTimeout` fails. -/
theorem c4_counterexample :
    (readStatusT 15 0 (dribble [0xFF, 0xFF, 0xFD, 0x00, 0x01, 0x07, 0x00, 0x55,
        0x00, 0x06, 0x04, 0x26, 0x65, 0x5D])).1 =
      .ok ⟨0x01, none, [0x06, 0x04, 0x26]⟩ ∧
    (readStatusT 15 0 (dribble [0xFF, 0xFF, 0xFD, 0x00, 0x01, 0x07, 0x00, 0x55,
        0x00, 0x06, 0x04, 0x26, 0x65, 0x5D])).2 = 28 ∧
    15 < 28 := by
  refine ⟨by decide, by decide, by decide⟩

lemma readNT_timeout (d : Nat) : ∀ (pre : List TEvent) (n expiry now : Nat)
    (ev : TEvent) (post : List TEvent), ev.val = none →
    expiry ≤ now + delaySum pre + ev.delay → byteCount pre < n →
    (readNT d n expiry now (pre ++ ev :: post)).1 = none := by
  intro pre
  induction pre with
  | nil =>
    intro n expiry now ev post hval hexp hcnt
    obtain ⟨m, rfl⟩ : ∃ m, n = m + 1 := ⟨n - 1, by omega⟩
    obtain ⟨delay, val⟩ := ev
    simp only at hval
    subst hval
    simp only [List.nil_append, readNT]
    rw [if_pos (by simp [delaySum] at hexp; omega)]
  | cons e pre' ih =>
    intro n expiry now ev post hval hexp hcnt
    obtain ⟨m, rfl⟩ : ∃ m, n = m + 1 := ⟨n - 1, by omega⟩
    obtain ⟨edelay, eval⟩ := e
    cases eval with
    | none =>
      simp only [List.cons_append, readNT]
      by_cases hto : expiry ≤ now + edelay
      · rw [if_pos hto]
      · rw [if_neg hto]
        exact ih (m + 1) expiry (now + edelay) ev post hval
          (by simp [delaySum] at hexp ⊢; omega)
          (by simpa [byteCount] using hcnt)
    | some b =>
      simp only [List.cons_append, readNT]
      have hfst : (readNT d m expiry (now + edelay) (pre' ++ ev :: post)).1 = none :=
        ih m expiry (now + edelay) ev post hval
          (by simp [delaySum] at hexp ⊢; omega)
          (by simp [byteCount] at hcnt; omega)
      rcases hq : readNT d m expiry (now + edelay) (pre' ++ ev :: post) with ⟨fst, t⟩
      rw [hq] at hfst
      simp only at hfst
      rw [hfst]

/-- C4 amended: each internal `readWithTimeout` call gets its own timer
of the configured duration, fixed at call start: inside one call, an
EOF observed at or past the expiry before the buffer is filled yields
a timeout no matter how many bytes arrived in between (the deadline is
never moved by a byte arrival); but `readStatus` starts a fresh timer
for every call — one per header-seek byte, one for id and length, one
for the body — so a stream dribbling one byte at a time with per-gap
delays below the timeout completes successfully even when the whole
`readStatus` call runs past the configured duration. -/
theorem c4_per_call_deadline :
    (∀ (d n expiry now : Nat) (pre : List TEvent) (ev : TEvent) (post : List TEvent),
      ev.val = none → expiry ≤ now + delaySum pre + ev.delay → byteCount pre < n →
      (readNT d n expiry now (pre ++ ev :: post)).1 = none) ∧
    (readStatusT 15 0 (dribble [0xFF, 0xFF, 0xFD, 0x00, 0x01, 0x07, 0x00, 0x55,
        0x00, 0x06, 0x04, 0x26, 0x65, 0x5D])).1 =
      .ok ⟨0x01, none, [0x06, 0x04, 0x26]⟩ :=
  ⟨fun d n expiry now pre ev post hval hexp hcnt =>
    readNT_timeout d pre n expiry now ev post hval hexp hcnt,
   by decide⟩

theorem c4_per_call_deadline_witness :
    (readNT 3 2 3 0 [⟨0, some 7⟩, ⟨5, none⟩]).1 = none :=
  c4_per_call_deadline.1 3 2 3 0 [⟨0, some 7⟩] ⟨5, none⟩ [] rfl
    (by decide) (by decide)

end DXL
